import Mathlib

/-!
Verification of the `nagios_object` Ansible module (`src/nagios_object.py`).

The module's own logic is shallow control flow over two external
collaborators, which the development models explicitly:

* the pynag object-definition library (object lookup by filter, attribute
  mutation, save-to-file, delete-with-cascade, filename resolution), and
* the Ansible module harness (`fail_json`, `backup_local`, `atomic_move`,
  `cleanup`, result reporting).

Python dictionaries are embedded as association lists, the filesystem as an
association list from paths to file contents, and a `fail_json` call as an
`Except` error that records the message together with the machine state at
the moment of failure (since `fail_json` aborts the process, the on-disk
state at that moment is what a failed invocation leaves behind).
-/

set_option autoImplicit false

namespace NagiosObject

/-- Attribute values accepted by the module after input validation:
null, integer or string (the module rejects everything else). -/
inductive Value where
  | null
  | int (n : Int)
  | str (s : String)
deriving DecidableEq, Repr

/-- Raw attribute values as they arrive from the Ansible `parameters`
dictionary, before the module's type check in `main` (booleans and other
kinds such as floats, lists or nested dicts may appear). -/
inductive RawValue where
  | null
  | int (n : Int)
  | str (s : String)
  | bool (b : Bool)
  | other
deriving DecidableEq, Repr

/-- A Python dictionary with string keys, embedded as an association list. -/
abbrev Attrs := List (String × Value)

/-- First binding of a key in an association list (Python `dict` lookup;
in a real `dict` keys are unique so first = only). -/
def alookup {α : Type} (l : List (String × α)) (k : String) : Option α :=
  match l with
  | [] => none
  | (k', v) :: rest => if k' = k then some v else alookup rest k

/-- `parameters.get(k)`: the stored value, or Python `None` (here `.null`)
when the key is absent. -/
def getv (p : Attrs) (k : String) : Value :=
  (alookup p k).getD .null

/-- Last binding of a key in an association list (the value that survives a
left-to-right fold of updates). -/
def lastLookup (p : Attrs) (k : String) : Option Value :=
  match p with
  | [] => none
  | (k', v) :: rest =>
    match lastLookup rest k with
    | some w => some w
    | none => if k' = k then some v else none

/-- A persisted Nagios object as exposed by the external pynag library:
its object type, its defined attributes, and the configuration file that
defines it. -/
structure NObj where
  object_type : String
  attrs : Attrs
  filename : String
deriving DecidableEq, Repr

/-- The filesystem, as a map from paths to file contents. -/
abbrev FS := List (String × String)

/-- The mutable state an invocation acts on: the persisted Nagios object
store (the parsed configuration tree) and the filesystem. -/
structure MState where
  store : List NObj
  fs : FS
deriving DecidableEq, Repr

def fsRead (fs : FS) (p : String) : Option String :=
  alookup fs p

def fsErase (fs : FS) (p : String) : FS :=
  fs.filter fun kv => !(kv.1 == p)

def fsWrite (fs : FS) (p : String) (c : String) : FS :=
  (p, c) :: fsErase fs p

/-- The name `AnsibleModule.backup_local` gives to the backup copy of a
file (modelled deterministically; the real harness appends a timestamp). -/
def backupName (f : String) : String :=
  f ++ ".backup"

/-- Model of `AnsibleModule.backup_local`: copies the file to a backup path
and returns it; returns the empty string when the file does not exist. -/
def backup_local (fs : FS) (f : String) : String × FS :=
  match fsRead fs f with
  | none => ("", fs)
  | some c => (backupName f, fsWrite fs (backupName f) c)

/-- Model of `AnsibleModule.atomic_move src dest`: `dest` gets the content
of `src`, and `src` disappears. -/
def atomic_move (fs : FS) (src : String) (dest : String) : FS :=
  fsWrite (fsErase fs src) dest ((fsRead fs src).getD "")

def renderValue : Value → String
  | .null => "null"
  | .int n => toString n
  | .str s => s

/-- Model of pynag's `str(object)` textual rendering of an object. -/
def render (o : NObj) : String :=
  "define " ++ o.object_type ++ "\n"
    ++ String.join (o.attrs.map fun kv => "  " ++ kv.1 ++ " " ++ renderValue kv.2 ++ "\n")
    ++ "end\n"

/-- Content of a configuration file: the renderings of every object of the
store that lives in it. -/
def renderFileOf (store : List NObj) (path : String) : String :=
  String.join ((store.filter fun o => o.filename == path).map render)

/-- Model of pynag's filename resolution for a new object: the explicit
`path` argument when given, otherwise a path derived from the object type
under the configuration directory (`pynag/<object type>/... .cfg`). -/
def get_filename (path : Option String) (ty : String) : String :=
  match path with
  | some p => p
  | none => "pynag/" ++ ty ++ ".cfg"

/-- The call sites of `fail_json` in `nagios_object.py`, one tag per kind
of fatal error the module can raise. -/
inductive ErrKind where
  | cfgMissing
  | binMissing
  | invalidValue
  | missingRequired
  | ambiguous
  | validationFailed
deriving DecidableEq, Repr

/-- A `fail_json` abort: the message and the machine state at the moment
the invocation died. -/
structure Failure where
  kind : ErrKind
  msg : String
  state : MState
deriving DecidableEq, Repr

/-- Model of the external pynag table `Model.config.object_type_keys`
mapping each simple object type to its single identifying attribute.
The table itself lives in the external library, outside this repository;
the module only indexes it at `src/nagios_object.py:218`. -/
def object_type_keys (ty : String) : String :=
  if ty = "host" then "host_name"
  else if ty = "hostgroup" then "hostgroup_name"
  else if ty = "servicegroup" then "servicegroup_name"
  else if ty = "contact" then "contact_name"
  else if ty = "contactgroup" then "contactgroup_name"
  else if ty = "timeperiod" then "timeperiod_name"
  else if ty = "command" then "command_name"
  else ty ++ "_name"

/-- `parameters.get('register', 1) == 0` (`src/nagios_object.py:177`):
true exactly when the declaration carries `register` with integer value 0
(Python `None == 0` and `"0" == 0` are both false). -/
def registerZero (p : Attrs) : Bool :=
  (alookup p "register").getD (.int 1) == .int 0

/-- Identifying key set of a declaration (`src/nagios_object.py:177-225`):
templates (`register = 0`) are identified by `name`; `service` requires
`service_description` and filters additionally on `host_name` and
`hostgroup_name`; the two dependency types filter on their composite key
sets with nothing required; every other type requires its single key from
`object_type_keys`. Errors are the module's `fail_json` messages. -/
def identifyingIds (ty : String) (p : Attrs) : Except String Attrs :=
  if registerZero p then
    match getv p "name" with
    | .null => .error ("name parameter must be defined for " ++ ty ++ " object template")
    | v => .ok [("name", v)]
  else if ty = "service" then
    match getv p "service_description" with
    | .null => .error "service_description attribute must be defined for service objects"
    | v => .ok [("service_description", v),
                ("host_name", getv p "host_name"),
                ("hostgroup_name", getv p "hostgroup_name")]
  else if ty = "servicedependency" then
    .ok [("host_name", getv p "host_name"),
         ("dependent_host_name", getv p "dependent_host_name"),
         ("hostgroup_name", getv p "hostgroup_name"),
         ("dependent_hostgroup_name", getv p "dependent_hostgroup_name"),
         ("service_description", getv p "service_description"),
         ("dependent_service_description", getv p "dependent_service_description"),
         ("servicegroup_name", getv p "servicegroup_name"),
         ("dependent_servicegroup_name", getv p "dependent_servicegroup_name")]
  else if ty = "hostdependency" then
    .ok [("host_name", getv p "host_name"),
         ("hostgroup_name", getv p "hostgroup_name"),
         ("dependent_host_name", getv p "dependent_host_name"),
         ("dependent_hostgroup_name", getv p "dependent_hostgroup_name")]
  else
    match getv p (object_type_keys ty) with
    | .null => .error (object_type_keys ty ++ " parameter must be defined for " ++ ty ++ " objects")
    | v => .ok [(object_type_keys ty, v)]

/-- The spec's notion of "the declaration lacks the type's required
identifying attribute(s)": `name` for templates, `service_description` for
services, nothing for the two dependency types, the type's
`object_type_keys` entry otherwise (absence and an explicit null are
indistinguishable through Python's `dict.get`). -/
def missingRequired (ty : String) (p : Attrs) : Bool :=
  if registerZero p then getv p "name" == .null
  else if ty = "service" then getv p "service_description" == .null
  else if ty = "servicedependency" || ty = "hostdependency" then false
  else getv p (object_type_keys ty) == .null

/-- Model of pynag's filter match: the object has the requested type and
every identifying key has exactly the requested value (a null request
matches objects where the attribute is undefined). -/
def objMatches (ty : String) (ids : Attrs) (o : NObj) : Bool :=
  o.object_type == ty && ids.all fun kv => getv o.attrs kv.1 == kv.2

/-- Model of `ObjectDefinition.objects.filter(object_type=ty, **ids)`. -/
def pynagFilter (store : List NObj) (ty : String) (ids : Attrs) : List NObj :=
  store.filter (objMatches ty ids)

/-- The validated module arguments consumed by `create_nagios_object` and
`delete_nagios_object` (the fields of `module.params` they read). -/
structure CArgs where
  path : Option String
  type : String
  parameters : Attrs
  present : Bool
  update : Bool
  validate : Bool
  backup : Bool
deriving DecidableEq, Repr

/-- `get_nagios_object` (`src/nagios_object.py:171-239`): resolve the
identifying key set, look up the store, and return the unique match, no
match, or fail on a missing key or an ambiguous match. -/
def get_nagios_object (ca : CArgs) (s : MState) : Except Failure (Option NObj) :=
  match identifyingIds ca.type ca.parameters with
  | .error m => .error ⟨.missingRequired, m, s⟩
  | .ok ids =>
    match pynagFilter s.store ca.type ids with
    | [] => .ok none
    | [o] => .ok (some o)
    | _ :: _ :: _ =>
      .error ⟨.ambiguous, "More than one Nagios object found matching parameter IDs", s⟩

/-- Model of pynag's `ObjectDefinition.set_attribute` as the module uses it
(`src/nagios_object.py:266-267` and the module documentation): a null value
removes the attribute, any other value (re)binds it. -/
def set_attribute (a : Attrs) (k : String) (v : Value) : Attrs :=
  let a' := a.filter fun kv => !(kv.1 == k)
  match v with
  | .null => a'
  | v => a' ++ [(k, v)]

/-- The update loop `for key, value in parameters.iteritems():
nagios_object.set_attribute(key, value)` (`src/nagios_object.py:266-267`). -/
def applyParams (a : Attrs) (p : Attrs) : Attrs :=
  match p with
  | [] => a
  | (k, v) :: rest => applyParams (set_attribute a k v) rest

/-- Extensional equality of attribute maps: every key carries the same
value on both sides (an undefined attribute counts as null, exactly as
Python's `dict.get` sees it). -/
def attrsEqv (x y : Attrs) : Bool :=
  (x.all fun kv => getv y kv.1 == getv x kv.1)
    && (y.all fun kv => getv x kv.1 == getv y kv.1)

/-- Model of pynag's `is_dirty()` after the update loop, per the library's
contract: the object needs saving exactly when some attribute actually
differs from its persisted value. -/
def is_dirty (newAttrs oldAttrs : Attrs) : Bool :=
  !attrsEqv newAttrs oldAttrs

/-- Split a character list on commas. -/
def splitCL : List Char → List (List Char)
  | [] => [[]]
  | c :: cs =>
    if c = ',' then [] :: splitCL cs
    else
      match splitCL cs with
      | [] => [[c]]
      | p :: ps => (c :: p) :: ps

/-- Join character lists with commas. -/
def joinCL : List (List Char) → List Char
  | [] => []
  | [p] => p
  | p :: ps => p ++ ',' :: joinCL ps

/-- Split a Nagios comma-separated list attribute into its members. -/
def splitComma (s : String) : List String :=
  (splitCL s.data).map String.mk

/-- Join members back into a Nagios comma-separated list attribute. -/
def joinComma (l : List String) : String :=
  String.mk (joinCL (l.map String.data))

/-- Members of a value viewed as a comma-separated reference list (only
string values can hold references). -/
def commaParts : Value → List String
  | .str s => splitComma s
  | _ => []

/-- The attributes through which Nagios objects reference each other by
name (membership and relationship lists); part of the model of pynag's
`cleanup_related_items` cascade. -/
def relationKeys : List String :=
  ["members", "host_name", "hostgroup_name", "service_description",
   "servicegroup_name", "contact_groups", "contacts", "contactgroup_name",
   "contact_name", "use", "parents", "hostgroups", "servicegroups",
   "contactgroups"]

/-- Remove every occurrence of a name from a comma-separated reference
list; the attribute becomes null when nothing is left. -/
def scrubValue (n : String) : Value → Value
  | .str s =>
    match (splitComma s).filter (fun q => !(q == n)) with
    | [] => .null
    | ps => .str (joinComma ps)
  | v => v

/-- Remove every reference to a name from an object's relation
attributes. -/
def scrubObj (n : String) (o : NObj) : NObj :=
  { o with attrs := o.attrs.map fun kv =>
      if relationKeys.contains kv.1 then (kv.1, scrubValue n kv.2) else kv }

/-- The name under which other objects reference this one: the value of
the type's identifying attribute, when it is a string. -/
def shortname (o : NObj) : Option String :=
  match getv o.attrs (object_type_keys o.object_type) with
  | .str s => some s
  | _ => none

/-- The scrub applied to the surviving objects when `o` is deleted. -/
def scrubFor (o : NObj) (x : NObj) : NObj :=
  match shortname o with
  | some n => scrubObj n x
  | none => x

/-- Whether an object still references a name through one of its relation
attributes. -/
def refersTo (o : NObj) (n : String) : Bool :=
  o.attrs.any fun kv => relationKeys.contains kv.1 && (commaParts kv.2).contains n

/-- Model of pynag's `delete(recursive=False, cleanup_related_items=True)`
(`src/nagios_object.py:309`): the object leaves the store, no other object
is deleted (non-recursive), and every reference to the object's shortname
is scrubbed from the survivors. -/
def pynagDelete (store : List NObj) (o : NObj) : List NObj :=
  (store.filter fun x => !(x == o)).map (scrubFor o)

/-- The tuple returned by `create_nagios_object` / `delete_nagios_object`:
`(changed, file, defined_attributes, before, after, backup_file)`. `none`
stands for Python `None`; `some ""` is the empty string `backup_local`
returns when the file to back up did not exist. -/
structure OpOut where
  changed : Bool
  file : Option String
  nagios_object : Option Attrs
  before : String
  after : String
  backup_file : Option String
deriving DecidableEq, Repr

/-- The brand-new object built by
`Model.string_to_class[nagios_object_type](filename=path, **parameters)`
(`src/nagios_object.py:259-260`): the declared type, the supplied
attributes (a null value leaving the attribute undefined), and the
resolved destination file. -/
def newNObj (ca : CArgs) : NObj :=
  { object_type := ca.type, attrs := applyParams [] ca.parameters,
    filename := get_filename ca.path ca.type }

/-- `create_nagios_object` (`src/nagios_object.py:242-287`): create the
object when no match exists (always a change), otherwise apply the update
loop when `update` is set and let `is_dirty` decide; on a change, back up
the owning file when `backup` or `validate` is set, then save. -/
def create_nagios_object (ca : CArgs) (s : MState) : Except Failure (OpOut × MState) :=
  match get_nagios_object ca s with
  | .error f => .error f
  | .ok none =>
    let obj : NObj := newNObj ca
    let bk := if ca.backup || ca.validate then backup_local s.fs obj.filename else ("", s.fs)
    let store' := s.store ++ [obj]
    let fs' := fsWrite bk.2 obj.filename (renderFileOf store' obj.filename)
    .ok ({ changed := true, file := some obj.filename, nagios_object := some obj.attrs,
           before := "", after := render obj, backup_file := some bk.1 },
         { store := store', fs := fs' })
  | .ok (some obj) =>
    let before := render obj
    let newAttrs := if ca.update then applyParams obj.attrs ca.parameters else obj.attrs
    let obj' : NObj := { obj with attrs := newAttrs }
    if is_dirty newAttrs obj.attrs then
      let bk := if ca.backup || ca.validate then backup_local s.fs obj.filename else ("", s.fs)
      let store' := s.store.map fun x => if x = obj then obj' else x
      let fs' := fsWrite bk.2 obj'.filename (renderFileOf store' obj'.filename)
      .ok ({ changed := true, file := some obj'.filename, nagios_object := some obj'.attrs,
             before := before, after := render obj', backup_file := some bk.1 },
           { store := store', fs := fs' })
    else
      .ok ({ changed := false, file := some obj.filename, nagios_object := some obj'.attrs,
             before := before, after := before, backup_file := some "" }, s)

/-- `delete_nagios_object` (`src/nagios_object.py:290-311`): no match
means no change; a match is backed up (when `backup` or `validate` is set)
and deleted non-recursively with cleanup of related items. -/
def delete_nagios_object (ca : CArgs) (s : MState) : Except Failure (OpOut × MState) :=
  match get_nagios_object ca s with
  | .error f => .error f
  | .ok none =>
    .ok ({ changed := false, file := none, nagios_object := none,
           before := "", after := "", backup_file := none }, s)
  | .ok (some obj) =>
    let f := obj.filename
    let bk : Option String × FS :=
      if ca.backup || ca.validate then
        let r := backup_local s.fs f
        (some r.1, r.2)
      else (none, s.fs)
    let store' := pynagDelete s.store obj
    let fs' := fsWrite bk.2 f (renderFileOf store' f)
    .ok ({ changed := true, file := some f, nagios_object := some obj.attrs,
           before := render obj, after := "", backup_file := bk.1 },
         { store := store', fs := fs' })

/-- The external environment an invocation runs against: whether the
explicitly given `nagios_cfg` is a file, what `get_nagios_bin` finds on
`PATH`, whether an explicitly given `nagios_bin` is executable, and the
external validator's verdict and captured output. -/
structure Env where
  cfgIsFile : Bool
  binFound : Option String
  binIsExe : Bool
  verifyOk : Bool
  verifyMsg : String
deriving DecidableEq, Repr

/-- `validate_nagios_configuration` (`src/nagios_object.py:314-339`): on a
passing verdict, drop the backup unless the caller asked for one; on a
failing verdict, delete the freshly created file when the backup is the
empty string, otherwise atomically restore the backup, and fail with the
validator's output. -/
def validate_nagios_configuration (ca : CArgs) (path : Option String)
    (backup_file : Option String) (env : Env) (s : MState) : Except Failure MState :=
  if env.verifyOk then
    if !ca.backup && backup_file.isSome then
      .ok { s with fs := fsErase s.fs (backup_file.getD "") }
    else
      .ok s
  else
    let pth := path.getD ""
    let msg := "Nagios configuration validation failed: " ++ env.verifyMsg
    if backup_file = some "" then
      .error ⟨.validationFailed, msg, { s with fs := fsErase s.fs pth }⟩
    else
      .error ⟨.validationFailed, msg,
        { s with fs := atomic_move s.fs (backup_file.getD "") pth }⟩

/-- The result `exit_json` reports: changed flag, resolved path, defined
attributes, diff text, and the backup path when the caller asked for a
backup. -/
structure MainOut where
  changed : Bool
  path : Option String
  nagios_object : Option Attrs
  before : String
  after : String
  backup_file : Option (Option String)
deriving DecidableEq, Repr

/-- The raw module arguments as Ansible hands them to `main`. -/
structure Args where
  path : Option String
  type : String
  parameters : List (String × RawValue)
  present : Bool
  update : Bool
  validate : Bool
  backup : Bool
  nagios_cfg : Option String
  nagios_bin : Option String
deriving DecidableEq, Repr

/-- The type check of `main` (`src/nagios_object.py:393-397`): a value
passes when it is null, a string, or a non-boolean integer. -/
def isInvalidRaw : RawValue → Bool
  | .null => false
  | .int _ => false
  | .str _ => false
  | .bool _ => true
  | .other => true

/-- Embed a raw value that passed the type check. -/
def toValue : RawValue → Value
  | .null => .null
  | .int n => .int n
  | .str s => .str s
  | .bool _ => .null
  | .other => .null

/-- The validation loop of `main`: fail at the first parameter whose value
is not null, integer or string, otherwise keep the map. -/
def validateParameters : List (String × RawValue) → Except String Attrs
  | [] => .ok []
  | (k, v) :: rest =>
    if isInvalidRaw v then
      .error (k ++ " parameter item must be null, integer or string")
    else
      match validateParameters rest with
      | .error m => .error m
      | .ok a => .ok ((k, toValue v) :: a)

/-- The Nagios-executable discovery of `main`
(`src/nagios_object.py:378-391`), returning the failure message when the
check fails. -/
def binCheckFails (a : Args) (env : Env) : Option String :=
  if a.validate then
    match a.nagios_bin with
    | none =>
      match env.binFound with
      | none => some "Could not find Nagios executable, required by validate"
      | some _ => none
    | some b =>
      if env.binIsExe then none
      else some ("Nagios executable " ++ b ++ " does not exist or is not executable")
  else none

/-- Build the reported result from an operation's tuple: the backup path
is reported only when the caller asked for a backup. -/
def mkMainOut (ca : CArgs) (out : OpOut) : MainOut :=
  { changed := out.changed, path := out.file, nagios_object := out.nagios_object,
    before := out.before, after := out.after,
    backup_file := if ca.backup then some out.backup_file else none }

/-- The validated view of the module arguments, as `main` passes them on
to the reconcilers through `module.params`. -/
def toCArgs (a : Args) (p : Attrs) : CArgs :=
  { path := a.path, type := a.type, parameters := p, present := a.present,
    update := a.update, validate := a.validate, backup := a.backup }

/-- The dispatch and validation tail of `main`
(`src/nagios_object.py:399-419`): run the present or absent reconciler,
then validate (and possibly roll back) when a change occurred and
validation is enabled. -/
def runOp (ca : CArgs) (env : Env) (s : MState) : Except Failure (MainOut × MState) :=
  match (if ca.present then create_nagios_object ca s else delete_nagios_object ca s) with
  | .error f => .error f
  | .ok (out, s1) =>
    if out.changed && ca.validate then
      match validate_nagios_configuration ca out.file out.backup_file env s1 with
      | .error f => .error f
      | .ok s2 => .ok (mkMainOut ca out, s2)
    else
      .ok (mkMainOut ca out, s1)

/-- `main` after the configuration-file check (`src/nagios_object.py:378`
onwards): executable discovery, the parameter type check, then the
reconciliation dispatch. -/
def runAfterCfg (a : Args) (env : Env) (s : MState) : Except Failure (MainOut × MState) :=
  match binCheckFails a env with
  | some m => .error ⟨.binMissing, m, s⟩
  | none =>
    match validateParameters a.parameters with
    | .error m => .error ⟨.invalidValue, m, s⟩
    | .ok p => runOp (toCArgs a p) env s

/-- One whole invocation of `main` (`src/nagios_object.py:342-419`),
starting with the `nagios_cfg` existence check (which the source only
performs when the caller supplied an explicit path). -/
def runModule (a : Args) (env : Env) (s : MState) : Except Failure (MainOut × MState) :=
  match a.nagios_cfg with
  | some c =>
    if env.cfgIsFile then runAfterCfg a env s
    else .error ⟨.cfgMissing, "Nagios configuration file " ++ c ++ " does not exist", s⟩
  | none => runAfterCfg a env s

/-! ### Association-list and filesystem lemmas -/

theorem alookup_nil {α : Type} (k : String) :
    alookup ([] : List (String × α)) k = none := rfl

theorem alookup_cons {α : Type} (k' : String) (v : α) (rest : List (String × α)) (k : String) :
    alookup ((k', v) :: rest) k = if k' = k then some v else alookup rest k := rfl

theorem alookup_append {α : Type} (l₁ l₂ : List (String × α)) (k : String) :
    alookup (l₁ ++ l₂) k = ((alookup l₁ k).rec (alookup l₂ k) fun v => some v) := by
  induction l₁ with
  | nil => rfl
  | cons kv rest ih =>
    obtain ⟨k', v⟩ := kv
    by_cases h : k' = k <;> simp [alookup_cons, h, ih]

theorem alookup_filterOut_self {α : Type} (l : List (String × α)) (k : String) :
    alookup (l.filter fun kv => !(kv.1 == k)) k = none := by
  induction l with
  | nil => rfl
  | cons kv rest ih =>
    obtain ⟨k', v⟩ := kv
    by_cases h : k' = k
    · simp [List.filter_cons, h, ih]
    · simp [List.filter_cons, h, alookup_cons, ih]

theorem alookup_filterOut_ne {α : Type} (l : List (String × α)) (k k' : String)
    (h : k' ≠ k) : alookup (l.filter fun kv => !(kv.1 == k)) k' = alookup l k' := by
  induction l with
  | nil => rfl
  | cons kv rest ih =>
    obtain ⟨k₀, v⟩ := kv
    by_cases h0 : k₀ = k
    · subst h0
      have hne : ¬ k₀ = k' := fun hc => h hc.symm
      simp [List.filter_cons, alookup_cons, hne, ih]
    · simp [List.filter_cons, h0, alookup_cons, ih]

theorem alookup_fsErase_self (fs : FS) (p : String) :
    alookup (fsErase fs p) p = none :=
  alookup_filterOut_self fs p

theorem alookup_fsErase_ne (fs : FS) (p q : String) (h : q ≠ p) :
    alookup (fsErase fs p) q = alookup fs q :=
  alookup_filterOut_ne fs p q h

theorem alookup_fsWrite_self (fs : FS) (p c : String) :
    alookup (fsWrite fs p c) p = some c := by
  simp [fsWrite, alookup_cons]

theorem alookup_fsWrite_ne (fs : FS) (p q c : String) (h : q ≠ p) :
    alookup (fsWrite fs p c) q = alookup fs q := by
  have hpq : ¬ p = q := fun hc => h hc.symm
  simp only [fsWrite, alookup_cons, if_neg hpq]
  exact alookup_fsErase_ne fs p q h

theorem backupName_ne (f : String) : backupName f ≠ f := by
  intro h
  have hl := congrArg String.length h
  rw [backupName, String.length_append] at hl
  have h7 : ".backup".length = 7 := rfl
  omega

theorem fsRead_atomic_move_dest (fs : FS) (src dest : String) :
    fsRead (atomic_move fs src dest) dest = some ((fsRead fs src).getD "") := by
  simp [atomic_move, fsRead, alookup_fsWrite_self]

/-! ### Attribute-update lemmas -/

theorem getv_set_self (a : Attrs) (k : String) (v : Value) :
    getv (set_attribute a k v) k = v := by
  cases v with
  | null => simp [set_attribute, getv, alookup_filterOut_self]
  | int n =>
    simp only [set_attribute, getv, alookup_append, alookup_filterOut_self, alookup_cons,
      if_pos rfl]
    rfl
  | str s =>
    simp only [set_attribute, getv, alookup_append, alookup_filterOut_self, alookup_cons,
      if_pos rfl]
    rfl

theorem getv_set_ne (a : Attrs) (k k' : String) (v : Value) (h : k' ≠ k) :
    getv (set_attribute a k v) k' = getv a k' := by
  have hne : ¬ k = k' := fun hc => h hc.symm
  cases v with
  | null => simp [set_attribute, getv, alookup_filterOut_ne a k k' h]
  | int n =>
    simp only [set_attribute, getv, alookup_append, alookup_filterOut_ne a k k' h,
      alookup_cons, if_neg hne, alookup_nil]
    cases alookup a k' <;> rfl
  | str s =>
    simp only [set_attribute, getv, alookup_append, alookup_filterOut_ne a k k' h,
      alookup_cons, if_neg hne, alookup_nil]
    cases alookup a k' <;> rfl

theorem alookup_set_self (a : Attrs) (k : String) (v : Value) :
    alookup (set_attribute a k v) k =
      (match v with | .null => none | w => some w) := by
  cases v with
  | null => simpa [set_attribute] using alookup_filterOut_self a k
  | int n =>
    simp [set_attribute, alookup_append, alookup_filterOut_self, alookup_cons]
  | str s =>
    simp [set_attribute, alookup_append, alookup_filterOut_self, alookup_cons]

theorem alookup_set_ne (a : Attrs) (k k' : String) (v : Value) (h : k' ≠ k) :
    alookup (set_attribute a k v) k' = alookup a k' := by
  have hne : ¬ k = k' := fun hc => h hc.symm
  cases v with
  | null => simpa [set_attribute] using alookup_filterOut_ne a k k' h
  | int n =>
    simp only [set_attribute, alookup_append, alookup_filterOut_ne a k k' h,
      alookup_cons, if_neg hne, alookup_nil]
    cases alookup a k' <;> rfl
  | str s =>
    simp only [set_attribute, alookup_append, alookup_filterOut_ne a k k' h,
      alookup_cons, if_neg hne, alookup_nil]
    cases alookup a k' <;> rfl

theorem getv_applyParams (p : Attrs) (a : Attrs) (k : String) :
    getv (applyParams a p) k =
      (match lastLookup p k with | some v => v | none => getv a k) := by
  induction p generalizing a with
  | nil => rfl
  | cons kv rest ih =>
    obtain ⟨k', v⟩ := kv
    rw [applyParams, ih (set_attribute a k' v)]
    rcases hrest : lastLookup rest k with _ | w
    · by_cases hk : k' = k
      · subst hk
        simp [lastLookup, hrest, getv_set_self]
      · simp [lastLookup, hrest, hk, getv_set_ne a k' k v (fun hc => hk hc.symm)]
    · simp [lastLookup, hrest]

theorem alookup_applyParams (p : Attrs) (a : Attrs) (k : String) :
    alookup (applyParams a p) k =
      (match lastLookup p k with
       | some .null => none
       | some w => some w
       | none => alookup a k) := by
  induction p generalizing a with
  | nil => rfl
  | cons kv rest ih =>
    obtain ⟨k', v⟩ := kv
    rw [applyParams, ih (set_attribute a k' v)]
    rcases hrest : lastLookup rest k with _ | w
    · by_cases hk : k' = k
      · subst hk
        simp only [lastLookup, hrest, if_pos rfl]
        rw [alookup_set_self]
        cases v <;> rfl
      · simp only [lastLookup, hrest, if_neg hk]
        rw [alookup_set_ne a k' k v (fun hc => hk hc.symm)]
    · simp only [lastLookup, hrest]
      cases w <;> rfl

theorem attrsEqv_of_forall_getv {x y : Attrs} (h : ∀ k, getv x k = getv y k) :
    attrsEqv x y = true := by
  simp only [attrsEqv, Bool.and_eq_true, List.all_eq_true, beq_iff_eq]
  constructor
  · intro kv _; exact (h kv.1).symm
  · intro kv _; exact h kv.1

theorem exists_getv_ne_of_not_attrsEqv {x y : Attrs} (h : attrsEqv x y = false) :
    ∃ k, getv x k ≠ getv y k := by
  by_contra hc
  push_neg at hc
  rw [attrsEqv_of_forall_getv hc] at h
  exact absurd h (by decide)

theorem lastLookup_of_not_mem (p : Attrs) (k : String)
    (h : k ∉ p.map Prod.fst) : lastLookup p k = none := by
  induction p with
  | nil => rfl
  | cons kv rest ih =>
    obtain ⟨k', v⟩ := kv
    simp only [List.map_cons, List.mem_cons] at h
    push_neg at h
    rw [lastLookup, ih h.2, if_neg (fun hc => h.1 hc.symm)]

theorem lastLookup_eq_alookup_of_nodup (p : Attrs) (k : String)
    (h : (p.map Prod.fst).Nodup) : lastLookup p k = alookup p k := by
  induction p with
  | nil => rfl
  | cons kv rest ih =>
    obtain ⟨k', v⟩ := kv
    simp only [List.map_cons, List.nodup_cons] at h
    by_cases hk : k' = k
    · subst hk
      simp [lastLookup, lastLookup_of_not_mem rest k' h.1, alookup_cons]
    · rw [lastLookup, ih h.2, alookup_cons, if_neg hk]
      cases alookup rest k <;> simp [hk]

theorem getv_applyParams_nil (p : Attrs) (k : String)
    (h : (p.map Prod.fst).Nodup) : getv (applyParams [] p) k = getv p k := by
  rw [getv_applyParams, lastLookup_eq_alookup_of_nodup p k h]
  rcases ha : alookup p k with _ | v
  · simp [getv, ha, alookup_nil]
  · simp [getv, ha]

theorem getv_applyParams_idem (a p : Attrs) (k : String) :
    getv (applyParams (applyParams a p) p) k = getv (applyParams a p) k := by
  rw [getv_applyParams, getv_applyParams]
  cases lastLookup p k <;> rfl

/-! ### Identity-resolution lemmas -/

theorem identifyingIds_error_iff (ty : String) (p : Attrs) :
    (∃ m, identifyingIds ty p = .error m) ↔ missingRequired ty p = true := by
  rw [identifyingIds, missingRequired]
  by_cases hr : registerZero p
  · simp only [hr, if_pos, beq_iff_eq]
    cases hn : getv p "name" <;> simp [hn]
  · simp only [hr, Bool.false_eq_true, if_neg, if_false]
    by_cases hs : ty = "service"
    · simp only [hs, if_pos, beq_iff_eq]
      cases hd : getv p "service_description" <;> simp [hd]
    · simp only [hs, if_false]
      by_cases hsd : ty = "servicedependency"
      · simp [hsd]
      · simp only [hsd, if_false]
        by_cases hhd : ty = "hostdependency"
        · simp [hhd]
        · simp only [hhd, if_false, hsd, Bool.or_self, beq_iff_eq]
          cases hk : getv p (object_type_keys ty) <;> simp [hk]

theorem identifyingIds_spec (ty : String) (p : Attrs) (ids : Attrs)
    (h : identifyingIds ty p = .ok ids) : ∀ kv ∈ ids, kv.2 = getv p kv.1 := by
  rw [identifyingIds] at h
  by_cases hr : registerZero p
  · rw [if_pos hr] at h
    cases hn : getv p "name" with
    | null => rw [hn] at h; exact absurd h (by simp)
    | int n =>
      rw [hn] at h; cases h; intro kv hkv; simp only [List.mem_singleton] at hkv
      subst hkv; simp [hn]
    | str s =>
      rw [hn] at h; cases h; intro kv hkv; simp only [List.mem_singleton] at hkv
      subst hkv; simp [hn]
  · rw [if_neg hr] at h
    by_cases hs : ty = "service"
    · rw [if_pos hs] at h
      cases hd : getv p "service_description" with
      | null => rw [hd] at h; exact absurd h (by simp)
      | int n =>
        rw [hd] at h; cases h; intro kv hkv
        simp only [List.mem_cons, List.not_mem_nil, or_false] at hkv
        rcases hkv with h1 | h1 | h1 <;> subst h1 <;> simp [hd]
      | str s =>
        rw [hd] at h; cases h; intro kv hkv
        simp only [List.mem_cons, List.not_mem_nil, or_false] at hkv
        rcases hkv with h1 | h1 | h1 <;> subst h1 <;> simp [hd]
    · rw [if_neg hs] at h
      by_cases hsd : ty = "servicedependency"
      · rw [if_pos hsd] at h
        cases h
        intro kv hkv
        simp only [List.mem_cons, List.not_mem_nil, or_false] at hkv
        rcases hkv with h1 | h1 | h1 | h1 | h1 | h1 | h1 | h1 <;> subst h1 <;> simp
      · rw [if_neg hsd] at h
        by_cases hhd : ty = "hostdependency"
        · rw [if_pos hhd] at h
          cases h
          intro kv hkv
          simp only [List.mem_cons, List.not_mem_nil, or_false] at hkv
          rcases hkv with h1 | h1 | h1 | h1 <;> subst h1 <;> simp
        · rw [if_neg hhd] at h
          cases hk : getv p (object_type_keys ty) with
          | null => rw [hk] at h; exact absurd h (by simp)
          | int n =>
            rw [hk] at h; cases h; intro kv hkv; simp only [List.mem_singleton] at hkv
            subst hkv; simp [hk]
          | str s =>
            rw [hk] at h; cases h; intro kv hkv; simp only [List.mem_singleton] at hkv
            subst hkv; simp [hk]

/-! ### Comma-separated reference-list lemmas -/

theorem splitCL_ne_nil (l : List Char) : splitCL l ≠ [] := by
  induction l with
  | nil => simp [splitCL]
  | cons c cs ih =>
    rw [splitCL]
    by_cases h : c = ','
    · simp [h]
    · rw [if_neg h]
      rcases hs : splitCL cs with _ | ⟨p, ps⟩
      · simp
      · simp

theorem mem_splitCL_no_comma (l : List Char) : ∀ q ∈ splitCL l, ',' ∉ q := by
  induction l with
  | nil =>
    intro q hq
    simp only [splitCL, List.mem_singleton] at hq
    subst hq; simp
  | cons c cs ih =>
    intro q hq
    rw [splitCL] at hq
    by_cases hc : c = ','
    · rw [if_pos hc] at hq
      rw [List.mem_cons] at hq
      rcases hq with hq | hq
      · subst hq; simp
      · exact ih q hq
    · rw [if_neg hc] at hq
      rcases hs : splitCL cs with _ | ⟨p, ps⟩
      · exact absurd hs (splitCL_ne_nil cs)
      · rw [hs] at hq
        rw [List.mem_cons] at hq
        rcases hq with hq | hq
        · subst hq
          intro hm
          rcases List.mem_cons.mp hm with h1 | h1
          · exact hc h1.symm
          · exact ih p (by rw [hs]; exact List.mem_cons_self p ps) h1
        · exact ih q (by rw [hs]; exact List.mem_cons_of_mem p hq)

theorem splitCL_no_comma (p : List Char) (h : ',' ∉ p) : splitCL p = [p] := by
  induction p with
  | nil => rfl
  | cons c cs ih =>
    have hc : c ≠ ',' := by intro hc; exact h (by simp [hc])
    have hcs : ',' ∉ cs := fun hm => h (List.mem_cons_of_mem c hm)
    rw [splitCL, if_neg hc, ih hcs]

theorem splitCL_append_comma (p : List Char) (rest : List Char) (h : ',' ∉ p) :
    splitCL (p ++ ',' :: rest) = p :: splitCL rest := by
  induction p with
  | nil => simp [splitCL]
  | cons c cs ih =>
    have hc : c ≠ ',' := by intro hc; exact h (by simp [hc])
    have hcs : ',' ∉ cs := fun hm => h (List.mem_cons_of_mem c hm)
    rw [List.cons_append, splitCL, if_neg hc, ih hcs]

theorem splitCL_joinCL (ps : List (List Char)) (hps : ps ≠ [])
    (h : ∀ q ∈ ps, ',' ∉ q) : splitCL (joinCL ps) = ps := by
  induction ps with
  | nil => exact absurd rfl hps
  | cons p rest ih =>
    rcases rest with _ | ⟨q, qs⟩
    · rw [joinCL]
      exact splitCL_no_comma p (h p (List.mem_cons_self p []))
    · have hj : joinCL (p :: q :: qs) = p ++ ',' :: joinCL (q :: qs) := rfl
      rw [hj, splitCL_append_comma p _ (h p (List.mem_cons_self p _))]
      exact congrArg (List.cons p)
        (ih (List.cons_ne_nil q qs) (fun r hr => h r (List.mem_cons_of_mem p hr)))

theorem stringMk_data (s : String) : String.mk s.data = s := rfl

theorem splitComma_joinComma (l : List String) (hl : l ≠ [])
    (h : ∀ q ∈ l, ',' ∉ q.data) : splitComma (joinComma l) = l := by
  rw [splitComma, joinComma]
  have hdata : (String.mk (joinCL (l.map String.data))).data = joinCL (l.map String.data) := rfl
  rw [hdata, splitCL_joinCL (l.map String.data) (by simpa using hl)
    (by intro q hq; rcases List.mem_map.mp hq with ⟨s, hs, rfl⟩; exact h s hs)]
  rw [List.map_map]
  have : (String.mk ∘ String.data) = id := by
    funext s; exact stringMk_data s
  rw [this, List.map_id]

theorem not_mem_commaParts_scrubValue (n : String) (v : Value) :
    n ∉ commaParts (scrubValue n v) := by
  cases v with
  | null => simp [scrubValue, commaParts]
  | int m => simp [scrubValue, commaParts]
  | str s =>
    rw [scrubValue]
    rcases hf : (splitComma s).filter (fun q => !(q == n)) with _ | ⟨p, ps⟩
    · simp [commaParts]
    · rw [commaParts]
      have hsub : ∀ q ∈ p :: ps, q ∈ splitComma s := by
        intro q hq
        have := hf ▸ hq
        exact List.mem_of_mem_filter this
      have hnc : ∀ q ∈ p :: ps, ',' ∉ q.data := by
        intro q hq
        have hqs : q ∈ splitComma s := hsub q hq
        rw [splitComma] at hqs
        rcases List.mem_map.mp hqs with ⟨cl, hcl, rfl⟩
        exact mem_splitCL_no_comma s.data cl hcl

      rw [splitComma_joinComma (p :: ps) (by simp) hnc]
      intro hn
      have := hf ▸ hn
      have hmem := List.mem_filter.mp this
      simp at hmem

theorem refersTo_scrubObj (n : String) (o : NObj) :
    refersTo (scrubObj n o) n = false := by
  rw [refersTo, List.any_eq_false]
  intro kv hkv
  simp only [scrubObj] at hkv
  rcases List.mem_map.mp hkv with ⟨kv₀, hkv₀, rfl⟩
  by_cases hrel : kv₀.1 ∈ relationKeys
  · have hnm := not_mem_commaParts_scrubValue n kv₀.2
    simp [hrel, hnm]
  · simp [hrel]

/-! ### Control-flow lemmas -/

theorem runModule_eq_runOp (a : Args) (env : Env) (s : MState) (p : Attrs)
    (hc : a.nagios_cfg = none ∨ env.cfgIsFile = true)
    (hb : binCheckFails a env = none)
    (hp : validateParameters a.parameters = .ok p) :
    runModule a env s = runOp (toCArgs a p) env s := by
  have hafter : runAfterCfg a env s = runOp (toCArgs a p) env s := by
    rw [runAfterCfg, hb, hp]
  rw [runModule]
  rcases hcfg : a.nagios_cfg with _ | c
  · exact hafter
  · rcases hc with hc | hc
    · rw [hcfg] at hc; exact absurd hc (by simp)
    · rw [hc]
      simpa using hafter

theorem get_nagios_object_missing (ca : CArgs) (s : MState)
    (h : missingRequired ca.type ca.parameters = true) :
    ∃ m, get_nagios_object ca s = .error ⟨.missingRequired, m, s⟩ := by
  rcases (identifyingIds_error_iff ca.type ca.parameters).mpr h with ⟨m, hm⟩
  exact ⟨m, by rw [get_nagios_object, hm]⟩

theorem get_nagios_object_none (ca : CArgs) (s : MState) (ids : Attrs)
    (hids : identifyingIds ca.type ca.parameters = .ok ids)
    (hfil : pynagFilter s.store ca.type ids = []) :
    get_nagios_object ca s = .ok none := by
  rw [get_nagios_object, hids]
  dsimp only
  rw [hfil]

theorem get_nagios_object_one (ca : CArgs) (s : MState) (ids : Attrs) (obj : NObj)
    (hids : identifyingIds ca.type ca.parameters = .ok ids)
    (hfil : pynagFilter s.store ca.type ids = [obj]) :
    get_nagios_object ca s = .ok (some obj) := by
  rw [get_nagios_object, hids]
  dsimp only
  rw [hfil]

theorem get_nagios_object_many (ca : CArgs) (s : MState) (ids : Attrs)
    (o₁ o₂ : NObj) (rest : List NObj)
    (hids : identifyingIds ca.type ca.parameters = .ok ids)
    (hfil : pynagFilter s.store ca.type ids = o₁ :: o₂ :: rest) :
    get_nagios_object ca s =
      .error ⟨.ambiguous, "More than one Nagios object found matching parameter IDs", s⟩ := by
  rw [get_nagios_object, hids]
  dsimp only
  rw [hfil]

theorem create_nagios_object_error (ca : CArgs) (s : MState) (f : Failure)
    (h : get_nagios_object ca s = .error f) :
    create_nagios_object ca s = .error f := by
  rw [create_nagios_object, h]

theorem delete_nagios_object_error (ca : CArgs) (s : MState) (f : Failure)
    (h : get_nagios_object ca s = .error f) :
    delete_nagios_object ca s = .error f := by
  rw [delete_nagios_object, h]

theorem runOp_get_error (ca : CArgs) (env : Env) (s : MState) (f : Failure)
    (h : get_nagios_object ca s = .error f) :
    runOp ca env s = .error f := by
  rw [runOp]
  by_cases hpres : ca.present = true
  · rw [if_pos hpres, create_nagios_object_error ca s f h]
  · rw [if_neg hpres, delete_nagios_object_error ca s f h]

/-! ### Concrete fixtures used by the claim witnesses -/

/-- An environment where every external check passes. -/
def fixEnv : Env :=
  { cfgIsFile := true, binFound := some "/usr/bin/nagios", binIsExe := true,
    verifyOk := true, verifyMsg := "" }

/-- An empty configuration: no persisted objects, no files. -/
def emptyState : MState := { store := [], fs := [] }

/-! ### Claims -/

/-- C1: for every object type, a declaration whose attribute map lacks
that type's required identifying attribute(s) makes the invocation fail
with the missing-required-attribute error, and the state it leaves behind
is exactly the initial one: no object was created, updated or deleted and
no file was written. -/
theorem claim1_missing_required_fails (a : Args) (env : Env) (s : MState) (p : Attrs)
    (hc : a.nagios_cfg = none ∨ env.cfgIsFile = true)
    (hb : binCheckFails a env = none)
    (hp : validateParameters a.parameters = .ok p)
    (hm : missingRequired a.type p = true) :
    ∃ m, runModule a env s = .error ⟨.missingRequired, m, s⟩ := by
  rw [runModule_eq_runOp a env s p hc hb hp]
  obtain ⟨m, hg⟩ := get_nagios_object_missing (toCArgs a p) s (by simpa [toCArgs] using hm)
  exact ⟨m, runOp_get_error (toCArgs a p) env s _ hg⟩

def c1Args : Args :=
  { path := some "h.cfg", type := "host", parameters := [("alias", .str "x")],
    present := true, update := true, validate := false, backup := false,
    nagios_cfg := none, nagios_bin := none }

theorem claim1_witness :
    ∃ m, runModule c1Args fixEnv emptyState = .error ⟨.missingRequired, m, emptyState⟩ :=
  claim1_missing_required_fails c1Args fixEnv emptyState [("alias", .str "x")]
    (Or.inl rfl) rfl rfl (by decide)

/-- C2: when more than one persisted object matches the declaration's type
and identifying key set, the invocation fails with the ambiguous-match
error and the state it leaves behind is exactly the initial one; no match
is silently picked. -/
theorem claim2_ambiguous_fails (a : Args) (env : Env) (s : MState) (p ids : Attrs)
    (o₁ o₂ : NObj) (rest : List NObj)
    (hc : a.nagios_cfg = none ∨ env.cfgIsFile = true)
    (hb : binCheckFails a env = none)
    (hp : validateParameters a.parameters = .ok p)
    (hids : identifyingIds a.type p = .ok ids)
    (hfil : pynagFilter s.store a.type ids = o₁ :: o₂ :: rest) :
    runModule a env s =
      .error ⟨.ambiguous, "More than one Nagios object found matching parameter IDs", s⟩ := by
  rw [runModule_eq_runOp a env s p hc hb hp]
  exact runOp_get_error (toCArgs a p) env s _
    (get_nagios_object_many (toCArgs a p) s ids o₁ o₂ rest hids hfil)

def c2Host1 : NObj :=
  { object_type := "host", attrs := [("host_name", .str "host1"), ("alias", .str "a")],
    filename := "h.cfg" }

def c2Host2 : NObj :=
  { object_type := "host", attrs := [("host_name", .str "host1"), ("alias", .str "b")],
    filename := "h2.cfg" }

def c2Args : Args :=
  { path := none, type := "host", parameters := [("host_name", .str "host1")],
    present := true, update := true, validate := false, backup := false,
    nagios_cfg := none, nagios_bin := none }

def c2State : MState :=
  { store := [c2Host1, c2Host2], fs := [("h.cfg", "x"), ("h2.cfg", "y")] }

theorem claim2_witness :
    runModule c2Args fixEnv c2State =
      .error ⟨.ambiguous, "More than one Nagios object found matching parameter IDs",
        c2State⟩ :=
  claim2_ambiguous_fails c2Args fixEnv c2State [("host_name", .str "host1")]
    [("host_name", .str "host1")] c2Host1 c2Host2 []
    (Or.inl rfl) rfl rfl rfl (by decide)

theorem get_nagios_object_ids_error (ca : CArgs) (s : MState) (m : String)
    (h : identifyingIds ca.type ca.parameters = .error m) :
    get_nagios_object ca s = .error ⟨.missingRequired, m, s⟩ := by
  rw [get_nagios_object, h]

/-- C10: a declaration with `register = 0` is treated as a template: its
identifying key set is the single attribute `name` whatever the object
type, and when `name` is missing the invocation fails before any lookup
or mutation, leaving the state untouched. -/
theorem claim10_template_key (a : Args) (env : Env) (s : MState) (p : Attrs)
    (hc : a.nagios_cfg = none ∨ env.cfgIsFile = true)
    (hb : binCheckFails a env = none)
    (hp : validateParameters a.parameters = .ok p)
    (hreg : registerZero p = true) :
    (getv p "name" = .null →
      runModule a env s =
        .error ⟨.missingRequired,
          "name parameter must be defined for " ++ a.type ++ " object template", s⟩)
    ∧ (∀ v, getv p "name" = v → v ≠ .null →
        identifyingIds a.type p = .ok [("name", v)]) := by
  constructor
  · intro hname
    rw [runModule_eq_runOp a env s p hc hb hp]
    refine runOp_get_error (toCArgs a p) env s _ (get_nagios_object_ids_error _ s _ ?_)
    rw [identifyingIds]
    dsimp only [toCArgs]
    rw [if_pos hreg, hname]
  · intro v hv hvn
    rw [identifyingIds, if_pos hreg, hv]
    cases v with
    | null => exact absurd rfl hvn
    | int n => rfl
    | str st => rfl

def c10Args : Args :=
  { path := none, type := "timeperiod", parameters := [("register", .int 0)],
    present := true, update := true, validate := false, backup := false,
    nagios_cfg := none, nagios_bin := none }

def c10ArgsNamed : Args :=
  { path := none, type := "timeperiod",
    parameters := [("register", .int 0), ("name", .str "t")],
    present := true, update := true, validate := false, backup := false,
    nagios_cfg := none, nagios_bin := none }

theorem claim10_witness :
    runModule c10Args fixEnv emptyState =
      .error ⟨.missingRequired,
        "name parameter must be defined for timeperiod object template", emptyState⟩
    ∧ identifyingIds "timeperiod" [("register", .int 0), ("name", .str "t")] =
        .ok [("name", .str "t")] :=
  ⟨(claim10_template_key c10Args fixEnv emptyState [("register", .int 0)]
      (Or.inl rfl) rfl rfl rfl).1 rfl,
   (claim10_template_key c10ArgsNamed fixEnv emptyState
      [("register", .int 0), ("name", .str "t")]
      (Or.inl rfl) rfl rfl rfl).2 (.str "t") rfl (by decide)⟩

theorem validateParameters_error_any (l : List (String × RawValue)) (m : String)
    (h : validateParameters l = .error m) :
    (l.any fun kv => isInvalidRaw kv.2) = true := by
  induction l with
  | nil => exact Except.noConfusion h
  | cons kv rest ih =>
    obtain ⟨k, v⟩ := kv
    rw [validateParameters] at h
    by_cases hv : isInvalidRaw v = true
    · simp [List.any_cons, hv]
    · rw [if_neg hv] at h
      cases hr : validateParameters rest with
      | error m' =>
        rw [hr] at h
        injection h with h1
        subst h1
        simp [List.any_cons, ih hr]
      | ok a => rw [hr] at h; exact Except.noConfusion h

theorem validateParameters_any_error (l : List (String × RawValue))
    (h : (l.any fun kv => isInvalidRaw kv.2) = true) :
    ∃ m, validateParameters l = .error m := by
  induction l with
  | nil => simp at h
  | cons kv rest ih =>
    obtain ⟨k, v⟩ := kv
    rw [validateParameters]
    by_cases hv : isInvalidRaw v = true
    · exact ⟨k ++ " parameter item must be null, integer or string", by rw [if_pos hv]⟩
    · rw [List.any_cons] at h
      rcases Bool.or_eq_true_iff.mp h with h1 | h1
      · exact absurd h1 hv
      · obtain ⟨m, hm⟩ := ih h1
        rw [if_neg hv, hm]
        exact ⟨m, rfl⟩

theorem get_nagios_object_error_kind (ca : CArgs) (s : MState) (f : Failure)
    (h : get_nagios_object ca s = .error f) :
    f.kind = .missingRequired ∨ f.kind = .ambiguous := by
  rw [get_nagios_object] at h
  cases hi : identifyingIds ca.type ca.parameters with
  | error m =>
    rw [hi] at h
    injection h with h1
    rw [← h1]
    exact Or.inl rfl
  | ok ids =>
    rw [hi] at h
    dsimp only at h
    cases hf : pynagFilter s.store ca.type ids with
    | nil => rw [hf] at h; exact Except.noConfusion h
    | cons o rest =>
      cases rest with
      | nil => rw [hf] at h; exact Except.noConfusion h
      | cons o₂ rest₂ =>
        rw [hf] at h
        injection h with h1
        rw [← h1]
        exact Or.inr rfl

theorem create_nagios_object_error_src (ca : CArgs) (s : MState) (f : Failure)
    (h : create_nagios_object ca s = .error f) :
    get_nagios_object ca s = .error f := by
  rw [create_nagios_object] at h
  cases hg : get_nagios_object ca s with
  | error f' =>
    rw [hg] at h
    injection h with h1
    rw [h1]
  | ok objopt =>
    rw [hg] at h
    cases objopt with
    | none => exact Except.noConfusion h
    | some obj =>
      dsimp only at h
      by_cases hd : is_dirty (if ca.update then applyParams obj.attrs ca.parameters
          else obj.attrs) obj.attrs = true
      · rw [if_pos hd] at h; exact Except.noConfusion h
      · rw [if_neg hd] at h; exact Except.noConfusion h

theorem delete_nagios_object_error_src (ca : CArgs) (s : MState) (f : Failure)
    (h : delete_nagios_object ca s = .error f) :
    get_nagios_object ca s = .error f := by
  rw [delete_nagios_object] at h
  cases hg : get_nagios_object ca s with
  | error f' =>
    rw [hg] at h
    injection h with h1
    rw [h1]
  | ok objopt =>
    rw [hg] at h
    cases objopt with
    | none => exact Except.noConfusion h
    | some obj => exact Except.noConfusion h

theorem validate_nagios_configuration_error_kind (ca : CArgs) (path : Option String)
    (bf : Option String) (env : Env) (s : MState) (f : Failure)
    (h : validate_nagios_configuration ca path bf env s = .error f) :
    f.kind = .validationFailed := by
  rw [validate_nagios_configuration] at h
  by_cases hv : env.verifyOk = true
  · rw [if_pos hv] at h
    by_cases hbk : (!ca.backup && bf.isSome) = true
    · rw [if_pos hbk] at h; exact Except.noConfusion h
    · rw [if_neg hbk] at h; exact Except.noConfusion h
  · rw [if_neg hv] at h
    dsimp only at h
    by_cases hbf : bf = some ""
    · rw [if_pos hbf] at h
      injection h with h1
      rw [← h1]
    · rw [if_neg hbf] at h
      injection h with h1
      rw [← h1]

theorem runOp_error_kind (ca : CArgs) (env : Env) (s : MState) (f : Failure)
    (h : runOp ca env s = .error f) :
    f.kind = .missingRequired ∨ f.kind = .ambiguous ∨ f.kind = .validationFailed := by
  rw [runOp] at h
  cases hop : (if ca.present then create_nagios_object ca s else delete_nagios_object ca s) with
  | error f' =>
    rw [hop] at h
    injection h with h1
    rw [← h1]
    have hget : get_nagios_object ca s = .error f' := by
      by_cases hpres : ca.present = true
      · rw [if_pos hpres] at hop
        exact create_nagios_object_error_src ca s f' hop
      · rw [if_neg hpres] at hop
        exact delete_nagios_object_error_src ca s f' hop
    rcases get_nagios_object_error_kind ca s f' hget with h2 | h2
    · exact Or.inl h2
    · exact Or.inr (Or.inl h2)
  | ok r =>
    obtain ⟨out, s1⟩ := r
    rw [hop] at h
    dsimp only at h
    by_cases hcv : (out.changed && ca.validate) = true
    · rw [if_pos hcv] at h
      cases hval : validate_nagios_configuration ca out.file out.backup_file env s1 with
      | error fv =>
        rw [hval] at h
        injection h with h1
        rw [← h1]
        exact Or.inr (Or.inr
          (validate_nagios_configuration_error_kind ca out.file out.backup_file env s1 fv hval))
      | ok s2 => rw [hval] at h; exact Except.noConfusion h
    · rw [if_neg hcv] at h
      exact Except.noConfusion h

/-- C8: with the environment checks passing, the invocation fails with the
invalid-attribute-value error exactly when some supplied attribute value is
neither null nor an integer nor a string; and any such failure leaves the
state exactly as it was, because the check runs before reconciliation. -/
theorem claim8_invalid_value_iff (a : Args) (env : Env) (s : MState)
    (hc : a.nagios_cfg = none ∨ env.cfgIsFile = true)
    (hb : binCheckFails a env = none) :
    ((∃ f, runModule a env s = .error f ∧ f.kind = ErrKind.invalidValue) ↔
        (a.parameters.any fun kv => isInvalidRaw kv.2) = true)
    ∧ (∀ f, runModule a env s = .error f → f.kind = ErrKind.invalidValue →
        f.state = s) := by
  have hrm : runModule a env s = runAfterCfg a env s := by
    rw [runModule]
    rcases hcfg : a.nagios_cfg with _ | c
    · rfl
    · rcases hc with hc | hc
      · rw [hcfg] at hc; exact absurd hc (by simp)
      · rw [hc]; simp
  rw [hrm, runAfterCfg, hb]
  dsimp only
  cases hvp : validateParameters a.parameters with
  | error m =>
    constructor
    · constructor
      · intro _
        exact validateParameters_error_any a.parameters m hvp
      · intro _
        exact ⟨⟨.invalidValue, m, s⟩, rfl, rfl⟩
    · intro f hf _
      injection hf with h1
      rw [← h1]
  | ok p =>
    constructor
    · constructor
      · rintro ⟨f, hf, hk⟩
        rcases runOp_error_kind (toCArgs a p) env s f hf with h1 | h1 | h1 <;>
          (rw [h1] at hk; exact absurd hk (by decide))
      · intro hany
        obtain ⟨m, hm⟩ := validateParameters_any_error a.parameters hany
        rw [hvp] at hm
        exact Except.noConfusion hm
    · intro f hf hk
      rcases runOp_error_kind (toCArgs a p) env s f hf with h1 | h1 | h1 <;>
        (rw [h1] at hk; exact absurd hk (by decide))

def c8Args : Args :=
  { path := none, type := "host",
    parameters := [("host_name", .str "host1"), ("flap", .bool true)],
    present := true, update := true, validate := false, backup := false,
    nagios_cfg := none, nagios_bin := none }

theorem claim8_witness :
    (∃ f, runModule c8Args fixEnv emptyState = .error f ∧
        f.kind = ErrKind.invalidValue)
    ∧ (∀ f, runModule c8Args fixEnv emptyState = .error f →
        f.kind = ErrKind.invalidValue → f.state = emptyState) :=
  ⟨(claim8_invalid_value_iff c8Args fixEnv emptyState (Or.inl rfl) rfl).1.mpr (by decide),
   (claim8_invalid_value_iff c8Args fixEnv emptyState (Or.inl rfl) rfl).2⟩

theorem create_nagios_object_existing (ca : CArgs) (s : MState) (obj : NObj)
    (hg : get_nagios_object ca s = .ok (some obj)) :
    create_nagios_object ca s =
      (let newAttrs := if ca.update then applyParams obj.attrs ca.parameters else obj.attrs
       let obj' : NObj := { obj with attrs := newAttrs }
       if is_dirty newAttrs obj.attrs then
         let bk := if ca.backup || ca.validate then backup_local s.fs obj.filename
                   else ("", s.fs)
         let store' := s.store.map fun x => if x = obj then obj' else x
         let fs' := fsWrite bk.2 obj'.filename (renderFileOf store' obj'.filename)
         .ok ({ changed := true, file := some obj'.filename,
                nagios_object := some obj'.attrs, before := render obj,
                after := render obj', backup_file := some bk.1 },
              { store := store', fs := fs' })
       else
         .ok ({ changed := false, file := some obj.filename,
                nagios_object := some obj'.attrs, before := render obj,
                after := render obj, backup_file := some "" }, s)) := by
  rw [create_nagios_object, hg]

/-- C5: on the present path with a matching existing object and updates
enabled (validation off), every supplied attribute is applied to the
object — the last supplied value of a key wins, and a null value removes
the attribute — the reported `changed` flag is exactly the dirtiness test,
`changed` can only be true when some attribute value actually differs from
its persisted value, and when nothing differs the invocation leaves the
state untouched, while a computed change rewrites the owning file. -/
theorem claim5_update_semantics (a : Args) (env : Env) (s : MState)
    (p ids : Attrs) (obj : NObj)
    (hc : a.nagios_cfg = none ∨ env.cfgIsFile = true)
    (hb : binCheckFails a env = none)
    (hp : validateParameters a.parameters = .ok p)
    (hids : identifyingIds a.type p = .ok ids)
    (hfil : pynagFilter s.store a.type ids = [obj])
    (hpres : a.present = true) (hupd : a.update = true) (hval : a.validate = false) :
    ∃ out s', runModule a env s = .ok (out, s')
      ∧ out.changed = is_dirty (applyParams obj.attrs p) obj.attrs
      ∧ (∀ k v, lastLookup p k = some v → getv (applyParams obj.attrs p) k = v)
      ∧ (∀ k, lastLookup p k = some .null → alookup (applyParams obj.attrs p) k = none)
      ∧ (out.changed = true → ∃ k, getv (applyParams obj.attrs p) k ≠ getv obj.attrs k)
      ∧ (out.changed = false → s' = s)
      ∧ (out.changed = true →
          alookup s'.fs obj.filename =
            some (renderFileOf
              (s.store.map fun x =>
                if x = obj then { obj with attrs := applyParams obj.attrs p } else x)
              obj.filename)) := by
  have happly : ∀ k v, lastLookup p k = some v → getv (applyParams obj.attrs p) k = v := by
    intro k v hkv
    rw [getv_applyParams, hkv]
  have hremove : ∀ k, lastLookup p k = some .null →
      alookup (applyParams obj.attrs p) k = none := by
    intro k hkv
    rw [alookup_applyParams, hkv]
  rw [runModule_eq_runOp a env s p hc hb hp]
  have hg : get_nagios_object (toCArgs a p) s = .ok (some obj) :=
    get_nagios_object_one (toCArgs a p) s ids obj hids hfil
  rw [runOp, if_pos (show (toCArgs a p).present = true from hpres),
    create_nagios_object_existing (toCArgs a p) s obj hg]
  dsimp only [toCArgs]
  rw [hupd]
  simp only [if_true]
  by_cases hd : is_dirty (applyParams obj.attrs p) obj.attrs = true
  · rw [if_pos hd]
    dsimp only
    rw [hval]
    simp only [Bool.and_false, Bool.false_eq_true, if_false]
    refine ⟨_, _, rfl, ?_, happly, hremove, ?_, ?_, ?_⟩
    · exact hd.symm
    · intro _
      rw [is_dirty] at hd
      exact exists_getv_ne_of_not_attrsEqv (by simpa using hd)
    · intro hfalse
      exact absurd hfalse (by simp [mkMainOut])
    · intro _
      exact alookup_fsWrite_self _ _ _
  · rw [if_neg hd]
    dsimp only
    simp only [Bool.false_and, Bool.false_eq_true, if_false]
    refine ⟨_, _, rfl, ?_, happly, hremove, ?_, ?_, ?_⟩
    · have hd' : is_dirty (applyParams obj.attrs p) obj.attrs = false := by
        simpa using hd
      simp [mkMainOut, hd']
    · intro htrue
      exact absurd htrue (by simp [mkMainOut])
    · intro _
      rfl
    · intro htrue
      exact absurd htrue (by simp [mkMainOut])

def c5Host : NObj :=
  { object_type := "host", attrs := [("host_name", .str "host1"), ("alias", .str "a")],
    filename := "h.cfg" }

def c5Params : Attrs := [("host_name", .str "host1"), ("alias", .str "b")]

def c5Args : Args :=
  { path := none, type := "host",
    parameters := [("host_name", .str "host1"), ("alias", .str "b")],
    present := true, update := true, validate := false, backup := false,
    nagios_cfg := none, nagios_bin := none }

def c5State : MState := { store := [c5Host], fs := [("h.cfg", "old")] }

theorem claim5_witness :
    ∃ out s', runModule c5Args fixEnv c5State = .ok (out, s')
      ∧ out.changed = is_dirty (applyParams c5Host.attrs c5Params) c5Host.attrs
      ∧ (∀ k v, lastLookup c5Params k = some v →
          getv (applyParams c5Host.attrs c5Params) k = v)
      ∧ (∀ k, lastLookup c5Params k = some .null →
          alookup (applyParams c5Host.attrs c5Params) k = none)
      ∧ (out.changed = true →
          ∃ k, getv (applyParams c5Host.attrs c5Params) k ≠ getv c5Host.attrs k)
      ∧ (out.changed = false → s' = c5State)
      ∧ (out.changed = true →
          alookup s'.fs c5Host.filename =
            some (renderFileOf
              (c5State.store.map fun x =>
                if x = c5Host then { c5Host with attrs := applyParams c5Host.attrs c5Params }
                else x)
              c5Host.filename)) :=
  claim5_update_semantics c5Args fixEnv c5State c5Params
    [("host_name", .str "host1")] c5Host
    (Or.inl rfl) rfl rfl rfl (by decide) rfl rfl rfl

theorem create_nagios_object_new (ca : CArgs) (s : MState)
    (hg : get_nagios_object ca s = .ok none) :
    create_nagios_object ca s =
      (let obj : NObj := newNObj ca
       let bk := if ca.backup || ca.validate then backup_local s.fs obj.filename
                 else ("", s.fs)
       let store' := s.store ++ [obj]
       let fs' := fsWrite bk.2 obj.filename (renderFileOf store' obj.filename)
       .ok ({ changed := true, file := some obj.filename, nagios_object := some obj.attrs,
              before := "", after := render obj, backup_file := some bk.1 },
            { store := store', fs := fs' })) := by
  rw [create_nagios_object, hg]

/-- C6: applying the same present-state declaration twice in succession is
idempotent: on a store with no matching object the first invocation
creates the object and reports `changed = true`, and the identical second
invocation finds it, computes no difference, reports `changed = false`,
and leaves the state of the first invocation untouched. -/
theorem claim6_idempotent (a : Args) (env : Env) (s : MState) (p ids : Attrs)
    (hc : a.nagios_cfg = none ∨ env.cfgIsFile = true)
    (hb : binCheckFails a env = none)
    (hp : validateParameters a.parameters = .ok p)
    (hids : identifyingIds a.type p = .ok ids)
    (hnodup : (p.map Prod.fst).Nodup)
    (hfil : pynagFilter s.store a.type ids = [])
    (hpres : a.present = true) (hupd : a.update = true) (hval : a.validate = false) :
    ∃ out1 s1 out2 s2,
      runModule a env s = .ok (out1, s1)
      ∧ out1.changed = true
      ∧ runModule a env s1 = .ok (out2, s2)
      ∧ out2.changed = false
      ∧ s2 = s1 := by
  have hg1 : get_nagios_object (toCArgs a p) s = .ok none :=
    get_nagios_object_none (toCArgs a p) s ids hids hfil
  have h1 : runModule a env s = runOp (toCArgs a p) env s :=
    runModule_eq_runOp a env s p hc hb hp
  rw [runOp, if_pos (show (toCArgs a p).present = true from hpres),
    create_nagios_object_new (toCArgs a p) s hg1] at h1
  dsimp only [toCArgs] at h1
  rw [hval] at h1
  simp only [Bool.or_false, Bool.and_false, Bool.false_eq_true, if_false] at h1
  have hmatch : objMatches a.type ids (newNObj (toCArgs a p)) = true := by
    rw [objMatches]
    simp only [Bool.and_eq_true]
    constructor
    · simp [newNObj, toCArgs]
    · rw [List.all_eq_true]
      intro kv hkv
      have h2 := identifyingIds_spec a.type p ids hids kv hkv
      rw [beq_iff_eq]
      dsimp only [newNObj, toCArgs]
      rw [getv_applyParams_nil p kv.1 hnodup]
      exact h2.symm
  have hfil2 : pynagFilter (s.store ++ [newNObj (toCArgs a p)]) a.type ids =
      [newNObj (toCArgs a p)] := by
    rw [pynagFilter] at hfil ⊢
    rw [List.filter_append, hfil]
    simp [hmatch]
  have heqv : attrsEqv (applyParams (applyParams [] p) p) (applyParams [] p) = true :=
    attrsEqv_of_forall_getv (fun k => getv_applyParams_idem [] p k)
  have hdirty : is_dirty (applyParams (applyParams [] p) p) (applyParams [] p) = false := by
    rw [is_dirty, heqv]
    rfl
  have hsecond : ∀ s' : MState,
      pynagFilter s'.store (toCArgs a p).type ids = [newNObj (toCArgs a p)] →
      runModule a env s' = .ok
        (mkMainOut (toCArgs a p)
          { changed := false, file := some (newNObj (toCArgs a p)).filename,
            nagios_object := some (applyParams (newNObj (toCArgs a p)).attrs p),
            before := render (newNObj (toCArgs a p)),
            after := render (newNObj (toCArgs a p)), backup_file := some "" }, s') := by
    intro s' hfil'
    have hg2 : get_nagios_object (toCArgs a p) s' = .ok (some (newNObj (toCArgs a p))) :=
      get_nagios_object_one (toCArgs a p) s' ids (newNObj (toCArgs a p)) hids hfil'
    have hupd' : (toCArgs a p).update = true := hupd
    rw [runModule_eq_runOp a env s' p hc hb hp,
      runOp, if_pos (show (toCArgs a p).present = true from hpres),
      create_nagios_object_existing (toCArgs a p) s' (newNObj (toCArgs a p)) hg2]
    dsimp only
    simp only [if_pos hupd']
    rw [if_neg (show ¬ is_dirty
        (applyParams (newNObj (toCArgs a p)).attrs ((toCArgs a p).parameters))
        (newNObj (toCArgs a p)).attrs = true
      from by dsimp only [newNObj, toCArgs]; simp [hdirty])]
    dsimp only
    simp only [Bool.false_and, Bool.false_eq_true, if_false]
    rfl
  refine ⟨_, _, _, _, h1, rfl, hsecond _ hfil2, rfl, rfl⟩

def c6Args : Args :=
  { path := some "hosts.cfg", type := "host",
    parameters := [("host_name", .str "host1"), ("alias", .str "Host 1")],
    present := true, update := true, validate := false, backup := false,
    nagios_cfg := none, nagios_bin := none }

theorem claim6_witness :
    ∃ out1 s1 out2 s2,
      runModule c6Args fixEnv emptyState = .ok (out1, s1)
      ∧ out1.changed = true
      ∧ runModule c6Args fixEnv s1 = .ok (out2, s2)
      ∧ out2.changed = false
      ∧ s2 = s1 :=
  claim6_idempotent c6Args fixEnv emptyState
    [("host_name", .str "host1"), ("alias", .str "Host 1")]
    [("host_name", .str "host1")]
    (Or.inl rfl) rfl rfl rfl (by decide) (by decide) rfl rfl rfl

theorem delete_nagios_object_absent (ca : CArgs) (s : MState)
    (hg : get_nagios_object ca s = .ok none) :
    delete_nagios_object ca s =
      .ok ({ changed := false, file := none, nagios_object := none,
             before := "", after := "", backup_file := none }, s) := by
  rw [delete_nagios_object, hg]

theorem delete_nagios_object_found (ca : CArgs) (s : MState) (obj : NObj)
    (hg : get_nagios_object ca s = .ok (some obj)) :
    delete_nagios_object ca s =
      (let bk : Option String × FS :=
         if ca.backup || ca.validate then
           let r := backup_local s.fs obj.filename
           (some r.1, r.2)
         else (none, s.fs)
       let store' := pynagDelete s.store obj
       let fs' := fsWrite bk.2 obj.filename (renderFileOf store' obj.filename)
       .ok ({ changed := true, file := some obj.filename,
              nagios_object := some obj.attrs, before := render obj, after := "",
              backup_file := bk.1 },
            { store := store', fs := fs' })) := by
  rw [delete_nagios_object, hg]

theorem mem_pynagDelete_of_mem (store : List NObj) (o x : NObj)
    (hx : x ∈ store) (hne : x ≠ o) : scrubFor o x ∈ pynagDelete store o := by
  rw [pynagDelete]
  exact List.mem_map_of_mem _ (List.mem_filter.mpr ⟨hx, by simp [hne]⟩)

theorem no_refs_in_pynagDelete (store : List NObj) (o : NObj) (n : String)
    (hn : shortname o = some n) :
    ∀ x ∈ pynagDelete store o, refersTo x n = false := by
  intro x hx
  rw [pynagDelete] at hx
  rcases List.mem_map.mp hx with ⟨x₀, hx₀, rfl⟩
  rw [scrubFor, hn]
  exact refersTo_scrubObj n x₀

theorem not_mem_pynagDelete (store : List NObj) (o : NObj)
    (h : ∀ x ∈ store, scrubFor o x = o → x = o) : o ∉ pynagDelete store o := by
  intro hmem
  rw [pynagDelete] at hmem
  rcases List.mem_map.mp hmem with ⟨x₀, hx₀, hEq⟩
  have hx₀m := List.mem_filter.mp hx₀
  have hx₀ne : ¬ x₀ = o := by simpa using hx₀m.2
  exact hx₀ne (h x₀ hx₀m.1 hEq)

/-- C7: on the absent path, a declaration with no persisted match reports
no change and leaves the state untouched; a declaration with a match
reports `changed = true` together with the object's original file path and
its pre-deletion textual rendering, the object is deleted non-recursively
(every other object survives, only scrubbed of references), no surviving
object still references the deleted object's shortname, and the deleted
object itself is gone from the store. -/
theorem claim7_absent_path (a : Args) (env : Env) (s : MState) (p ids : Attrs)
    (hc : a.nagios_cfg = none ∨ env.cfgIsFile = true)
    (hb : binCheckFails a env = none)
    (hp : validateParameters a.parameters = .ok p)
    (hids : identifyingIds a.type p = .ok ids)
    (habs : a.present = false) (hval : a.validate = false) :
    (pynagFilter s.store a.type ids = [] →
      ∃ out, runModule a env s = .ok (out, s)
        ∧ out.changed = false ∧ out.path = none)
    ∧ (∀ obj, pynagFilter s.store a.type ids = [obj] →
        ∃ out s', runModule a env s = .ok (out, s')
          ∧ out.changed = true
          ∧ out.path = some obj.filename
          ∧ out.before = render obj
          ∧ s'.store = pynagDelete s.store obj
          ∧ (∀ o ∈ s.store, o ≠ obj → scrubFor obj o ∈ s'.store)
          ∧ (∀ n, shortname obj = some n → ∀ o' ∈ s'.store, refersTo o' n = false)
          ∧ ((∀ x ∈ s.store, scrubFor obj x = obj → x = obj) → obj ∉ s'.store)) := by
  constructor
  · intro hfil
    have hg : get_nagios_object (toCArgs a p) s = .ok none :=
      get_nagios_object_none (toCArgs a p) s ids hids hfil
    rw [runModule_eq_runOp a env s p hc hb hp, runOp,
      if_neg (show ¬ (toCArgs a p).present = true from by simp [toCArgs, habs]),
      delete_nagios_object_absent (toCArgs a p) s hg]
    dsimp only
    simp only [Bool.false_and, Bool.false_eq_true, if_false]
    exact ⟨_, rfl, rfl, rfl⟩
  · intro obj hfil
    have hg : get_nagios_object (toCArgs a p) s = .ok (some obj) :=
      get_nagios_object_one (toCArgs a p) s ids obj hids hfil
    rw [runModule_eq_runOp a env s p hc hb hp, runOp,
      if_neg (show ¬ (toCArgs a p).present = true from by simp [toCArgs, habs]),
      delete_nagios_object_found (toCArgs a p) s obj hg]
    dsimp only
    rw [show (toCArgs a p).validate = false from hval]
    simp only [Bool.and_false, Bool.false_eq_true, if_false]
    refine ⟨_, _, rfl, rfl, rfl, rfl, rfl, ?_, ?_, ?_⟩
    · intro o ho hne
      exact mem_pynagDelete_of_mem s.store obj o ho hne
    · intro n hn o' ho'
      exact no_refs_in_pynagDelete s.store obj n hn o' ho'
    · intro hinj
      exact not_mem_pynagDelete s.store obj hinj

def c7Host : NObj :=
  { object_type := "host", attrs := [("host_name", .str "host1")], filename := "h.cfg" }

def c7Group : NObj :=
  { object_type := "hostgroup",
    attrs := [("hostgroup_name", .str "g"), ("members", .str "host1,host2")],
    filename := "g.cfg" }

def c7Params : Attrs := [("host_name", .str "host1")]

def c7Args : Args :=
  { path := none, type := "host", parameters := [("host_name", .str "host1")],
    present := false, update := true, validate := false, backup := false,
    nagios_cfg := none, nagios_bin := none }

def c7State : MState :=
  { store := [c7Host, c7Group], fs := [("h.cfg", "x"), ("g.cfg", "y")] }

theorem claim7_witness :
    (∃ out, runModule c7Args fixEnv emptyState = .ok (out, emptyState)
      ∧ out.changed = false ∧ out.path = none)
    ∧ (∃ out s', runModule c7Args fixEnv c7State = .ok (out, s')
        ∧ out.changed = true
        ∧ out.path = some c7Host.filename
        ∧ out.before = render c7Host
        ∧ s'.store = pynagDelete c7State.store c7Host
        ∧ (∀ o ∈ c7State.store, o ≠ c7Host → scrubFor c7Host o ∈ s'.store)
        ∧ (∀ n, shortname c7Host = some n → ∀ o' ∈ s'.store, refersTo o' n = false)
        ∧ ((∀ x ∈ c7State.store, scrubFor c7Host x = c7Host → x = c7Host) →
            c7Host ∉ s'.store)) :=
  ⟨(claim7_absent_path c7Args fixEnv emptyState c7Params [("host_name", .str "host1")]
      (Or.inl rfl) rfl rfl rfl rfl rfl).1 (by decide),
   (claim7_absent_path c7Args fixEnv c7State c7Params [("host_name", .str "host1")]
      (Or.inl rfl) rfl rfl rfl rfl rfl).2 c7Host (by decide)⟩

theorem backupName_ne_empty (f : String) : backupName f ≠ "" := by
  intro h
  have hl := congrArg String.length h
  rw [backupName, String.length_append] at hl
  have h7 : ".backup".length = 7 := rfl
  have h0 : ("" : String).length = 0 := rfl
  omega

theorem validate_fail_restore (ca : CArgs) (path : Option String) (b : String)
    (env : Env) (s : MState) (hv : env.verifyOk = false) (hb : b ≠ "") :
    validate_nagios_configuration ca path (some b) env s =
      .error ⟨.validationFailed,
        "Nagios configuration validation failed: " ++ env.verifyMsg,
        { s with fs := atomic_move s.fs b (path.getD "") }⟩ := by
  rw [validate_nagios_configuration, if_neg (by simp [hv])]
  dsimp only
  rw [if_neg (by simp [hb])]
  rfl

theorem validate_fail_cleanup (ca : CArgs) (path : Option String)
    (env : Env) (s : MState) (hv : env.verifyOk = false) :
    validate_nagios_configuration ca path (some "") env s =
      .error ⟨.validationFailed,
        "Nagios configuration validation failed: " ++ env.verifyMsg,
        { s with fs := fsErase s.fs (path.getD "") }⟩ := by
  rw [validate_nagios_configuration, if_neg (by simp [hv])]
  dsimp only
  rw [if_pos rfl]

theorem validate_ok_discard (ca : CArgs) (path : Option String) (b : String)
    (env : Env) (s : MState) (hv : env.verifyOk = true) (hbk : ca.backup = false) :
    validate_nagios_configuration ca path (some b) env s =
      .ok { s with fs := fsErase s.fs b } := by
  rw [validate_nagios_configuration, if_pos (by simp [hv]),
    if_pos (by simp [hbk])]
  rfl

theorem validate_ok_keep (ca : CArgs) (path : Option String) (b : String)
    (env : Env) (s : MState) (hv : env.verifyOk = true) (hbk : ca.backup = true) :
    validate_nagios_configuration ca path (some b) env s = .ok s := by
  rw [validate_nagios_configuration, if_pos (by simp [hv]),
    if_neg (by simp [hbk])]

/-- C3: when validation is enabled and the external validator rejects the
configuration after an update to a previously existing object, the
invocation fails with the validator's output as its message and the
owning configuration file is restored from the pre-change backup: its
content in the final state is byte-identical to its pre-update content. -/
theorem claim3_failed_validation_restores (a : Args) (env : Env) (s : MState)
    (p ids : Attrs) (obj : NObj) (c : String)
    (hc : a.nagios_cfg = none ∨ env.cfgIsFile = true)
    (hb : binCheckFails a env = none)
    (hp : validateParameters a.parameters = .ok p)
    (hids : identifyingIds a.type p = .ok ids)
    (hfil : pynagFilter s.store a.type ids = [obj])
    (hpres : a.present = true) (hupd : a.update = true) (hval : a.validate = true)
    (hdirty : is_dirty (applyParams obj.attrs p) obj.attrs = true)
    (hfile : fsRead s.fs obj.filename = some c)
    (hver : env.verifyOk = false) :
    ∃ f, runModule a env s = .error f
      ∧ f.kind = .validationFailed
      ∧ f.msg = "Nagios configuration validation failed: " ++ env.verifyMsg
      ∧ fsRead f.state.fs obj.filename = some c := by
  have hg := get_nagios_object_one (toCArgs a p) s ids obj hids hfil
  have hupd' : (toCArgs a p).update = true := hupd
  have hval' : (toCArgs a p).validate = true := hval
  rw [runModule_eq_runOp a env s p hc hb hp, runOp,
    if_pos (show (toCArgs a p).present = true from hpres),
    create_nagios_object_existing (toCArgs a p) s obj hg]
  dsimp only
  simp only [if_pos hupd']
  rw [if_pos (show is_dirty (applyParams obj.attrs ((toCArgs a p).parameters))
    obj.attrs = true from hdirty)]
  simp only [hval', Bool.or_true, Bool.and_true, if_true]
  rw [backup_local, hfile]
  dsimp only
  rw [validate_fail_restore (toCArgs a p) (some obj.filename) (backupName obj.filename)
    env _ hver (backupName_ne_empty obj.filename)]
  refine ⟨_, rfl, rfl, rfl, ?_⟩
  simp only [Option.getD_some]
  rw [fsRead_atomic_move_dest]
  have hbk : fsRead (fsWrite (fsWrite s.fs (backupName obj.filename) c) obj.filename
      (renderFileOf
        (s.store.map fun x =>
          if x = obj then
            { obj with attrs := applyParams obj.attrs ((toCArgs a p).parameters) }
          else x)
        obj.filename)) (backupName obj.filename) = some c := by
    rw [fsRead, alookup_fsWrite_ne _ _ _ _ (backupName_ne obj.filename),
      alookup_fsWrite_self]
  rw [hbk]
  rfl

def c3Host : NObj :=
  { object_type := "host", attrs := [("host_name", .str "host1"), ("alias", .str "a")],
    filename := "h.cfg" }

def c3Args : Args :=
  { path := none, type := "host",
    parameters := [("host_name", .str "host1"), ("alias", .str "b")],
    present := true, update := true, validate := true, backup := false,
    nagios_cfg := none, nagios_bin := none }

def c3Env : Env :=
  { cfgIsFile := true, binFound := some "/usr/bin/nagios", binIsExe := true,
    verifyOk := false, verifyMsg := "configuration error" }

def c3State : MState := { store := [c3Host], fs := [("h.cfg", "ORIGINAL")] }

theorem claim3_witness :
    ∃ f, runModule c3Args c3Env c3State = .error f
      ∧ f.kind = .validationFailed
      ∧ f.msg = "Nagios configuration validation failed: " ++ c3Env.verifyMsg
      ∧ fsRead f.state.fs c3Host.filename = some "ORIGINAL" :=
  claim3_failed_validation_restores c3Args c3Env c3State
    [("host_name", .str "host1"), ("alias", .str "b")]
    [("host_name", .str "host1")] c3Host "ORIGINAL"
    (Or.inl rfl) rfl rfl rfl (by decide) rfl rfl rfl (by decide) rfl rfl

/-- C4: when validation is enabled and the external validator rejects the
configuration after creating a brand-new object whose target file did not
exist before the change (so no backup existed), the newly written file is
deleted during rollback — it does not exist in the final state — and the
invocation fails. -/
theorem claim4_failed_validation_deletes (a : Args) (env : Env) (s : MState)
    (p ids : Attrs)
    (hc : a.nagios_cfg = none ∨ env.cfgIsFile = true)
    (hb : binCheckFails a env = none)
    (hp : validateParameters a.parameters = .ok p)
    (hids : identifyingIds a.type p = .ok ids)
    (hfil : pynagFilter s.store a.type ids = [])
    (hpres : a.present = true) (hval : a.validate = true)
    (hnew : fsRead s.fs (get_filename a.path a.type) = none)
    (hver : env.verifyOk = false) :
    ∃ f, runModule a env s = .error f
      ∧ f.kind = .validationFailed
      ∧ f.msg = "Nagios configuration validation failed: " ++ env.verifyMsg
      ∧ fsRead f.state.fs (get_filename a.path a.type) = none := by
  have hg := get_nagios_object_none (toCArgs a p) s ids hids hfil
  have hval' : (toCArgs a p).validate = true := hval
  have hnew' : fsRead s.fs (newNObj (toCArgs a p)).filename = none := hnew
  rw [runModule_eq_runOp a env s p hc hb hp, runOp,
    if_pos (show (toCArgs a p).present = true from hpres),
    create_nagios_object_new (toCArgs a p) s hg]
  dsimp only
  simp only [hval', Bool.or_true, Bool.and_true, if_true]
  rw [backup_local, hnew']
  dsimp only
  rw [validate_fail_cleanup (toCArgs a p) (some (newNObj (toCArgs a p)).filename)
    env _ hver]
  refine ⟨_, rfl, rfl, rfl, ?_⟩
  simp only [Option.getD_some]
  rw [fsRead]
  exact alookup_fsErase_self _ _

def c4Args : Args :=
  { path := some "new.cfg", type := "host",
    parameters := [("host_name", .str "host2")],
    present := true, update := true, validate := true, backup := false,
    nagios_cfg := none, nagios_bin := none }

def c4Env : Env :=
  { cfgIsFile := true, binFound := some "/usr/bin/nagios", binIsExe := true,
    verifyOk := false, verifyMsg := "bad host" }

theorem claim4_witness :
    ∃ f, runModule c4Args c4Env emptyState = .error f
      ∧ f.kind = .validationFailed
      ∧ f.msg = "Nagios configuration validation failed: " ++ c4Env.verifyMsg
      ∧ fsRead f.state.fs (get_filename c4Args.path c4Args.type) = none :=
  claim4_failed_validation_deletes c4Args c4Env emptyState
    [("host_name", .str "host2")] [("host_name", .str "host2")]
    (Or.inl rfl) rfl rfl rfl (by decide) rfl rfl rfl rfl

/-- C9: when validation is requested and a change occurs to an existing
object, a backup of the affected file holding its pre-change content is
taken before the change is committed even if the caller did not ask for a
backup; on validation success the backup is discarded unless the caller's
backup flag was set, in which case it survives with the pre-change content
and its path is reported. -/
theorem claim9_backup_lifecycle (a : Args) (env : Env) (s : MState)
    (p ids : Attrs) (obj : NObj) (c : String)
    (hc : a.nagios_cfg = none ∨ env.cfgIsFile = true)
    (hb : binCheckFails a env = none)
    (hp : validateParameters a.parameters = .ok p)
    (hids : identifyingIds a.type p = .ok ids)
    (hfil : pynagFilter s.store a.type ids = [obj])
    (hpres : a.present = true) (hupd : a.update = true) (hval : a.validate = true)
    (hdirty : is_dirty (applyParams obj.attrs p) obj.attrs = true)
    (hfile : fsRead s.fs obj.filename = some c)
    (hver : env.verifyOk = true) :
    ∃ out s', runModule a env s = .ok (out, s')
      ∧ out.changed = true
      ∧ (∃ out₀ s₀, create_nagios_object (toCArgs a p) s = .ok (out₀, s₀)
          ∧ out₀.backup_file = some (backupName obj.filename)
          ∧ fsRead s₀.fs (backupName obj.filename) = some c)
      ∧ (a.backup = false →
          fsRead s'.fs (backupName obj.filename) = none ∧ out.backup_file = none)
      ∧ (a.backup = true →
          fsRead s'.fs (backupName obj.filename) = some c
          ∧ out.backup_file = some (some (backupName obj.filename))) := by
  have hg := get_nagios_object_one (toCArgs a p) s ids obj hids hfil
  have hupd' : (toCArgs a p).update = true := hupd
  have hval' : (toCArgs a p).validate = true := hval
  have hcr : create_nagios_object (toCArgs a p) s =
      .ok ({ changed := true, file := some obj.filename,
             nagios_object := some (applyParams obj.attrs ((toCArgs a p).parameters)),
             before := render obj,
             after := render
               { obj with attrs := applyParams obj.attrs ((toCArgs a p).parameters) },
             backup_file := some (backupName obj.filename) },
           { store := s.store.map fun x =>
               if x = obj then
                 { obj with attrs := applyParams obj.attrs ((toCArgs a p).parameters) }
               else x,
             fs := fsWrite (fsWrite s.fs (backupName obj.filename) c) obj.filename
               (renderFileOf
                 (s.store.map fun x =>
                   if x = obj then
                     { obj with attrs := applyParams obj.attrs ((toCArgs a p).parameters) }
                   else x)
                 obj.filename) }) := by
    rw [create_nagios_object_existing (toCArgs a p) s obj hg]
    dsimp only
    simp only [if_pos hupd']
    rw [if_pos (show is_dirty (applyParams obj.attrs ((toCArgs a p).parameters))
      obj.attrs = true from hdirty)]
    simp only [hval', Bool.or_true, Bool.and_true, if_true]
    rw [backup_local, hfile]
  have hbkev : fsRead
      (fsWrite (fsWrite s.fs (backupName obj.filename) c) obj.filename
        (renderFileOf
          (s.store.map fun x =>
            if x = obj then
              { obj with attrs := applyParams obj.attrs ((toCArgs a p).parameters) }
            else x)
          obj.filename)) (backupName obj.filename) = some c := by
    rw [fsRead, alookup_fsWrite_ne _ _ _ _ (backupName_ne obj.filename),
      alookup_fsWrite_self]
  by_cases hbk : a.backup = true
  · rw [runModule_eq_runOp a env s p hc hb hp, runOp,
      if_pos (show (toCArgs a p).present = true from hpres), hcr]
    dsimp only
    simp only [hval', Bool.and_true, if_true]
    rw [validate_ok_keep _ _ _ _ _ hver (show (toCArgs a p).backup = true from hbk)]
    refine ⟨_, _, rfl, rfl, ?_, ?_, ?_⟩
    · refine ⟨_, _, rfl, ?_, ?_⟩
      · rfl
      · exact hbkev
    · intro hfalse
      rw [hbk] at hfalse
      exact Bool.noConfusion hfalse
    · intro _
      exact ⟨hbkev, by simp [mkMainOut, show (toCArgs a p).backup = true from hbk]⟩
  · have hbkf : a.backup = false := by revert hbk; cases a.backup <;> simp
    rw [runModule_eq_runOp a env s p hc hb hp, runOp,
      if_pos (show (toCArgs a p).present = true from hpres), hcr]
    dsimp only
    simp only [hval', Bool.and_true, if_true]
    rw [validate_ok_discard _ _ _ _ _ hver (show (toCArgs a p).backup = false from hbkf)]
    refine ⟨_, _, rfl, rfl, ?_, ?_, ?_⟩
    · refine ⟨_, _, rfl, ?_, ?_⟩
      · rfl
      · exact hbkev
    · intro _
      constructor
      · rw [fsRead]
        exact alookup_fsErase_self _ _
      · simp [mkMainOut, show (toCArgs a p).backup = false from hbkf]
    · intro htrue
      rw [hbkf] at htrue
      exact Bool.noConfusion htrue

def c9Env : Env :=
  { cfgIsFile := true, binFound := some "/usr/bin/nagios", binIsExe := true,
    verifyOk := true, verifyMsg := "" }

theorem claim9_witness :
    ∃ out s', runModule c3Args c9Env c3State = .ok (out, s')
      ∧ out.changed = true
      ∧ (∃ out₀ s₀, create_nagios_object
            (toCArgs c3Args [("host_name", .str "host1"), ("alias", .str "b")]) c3State =
              .ok (out₀, s₀)
          ∧ out₀.backup_file = some (backupName c3Host.filename)
          ∧ fsRead s₀.fs (backupName c3Host.filename) = some "ORIGINAL")
      ∧ (c3Args.backup = false →
          fsRead s'.fs (backupName c3Host.filename) = none ∧ out.backup_file = none)
      ∧ (c3Args.backup = true →
          fsRead s'.fs (backupName c3Host.filename) = some "ORIGINAL"
          ∧ out.backup_file = some (some (backupName c3Host.filename))) :=
  claim9_backup_lifecycle c3Args c9Env c3State
    [("host_name", .str "host1"), ("alias", .str "b")]
    [("host_name", .str "host1")] c3Host "ORIGINAL"
    (Or.inl rfl) rfl rfl rfl (by decide) rfl rfl rfl (by decide) rfl rfl

end NagiosObject
